import Mathlib

/-!
Verification development for the Wider2Yolo annotation converter
(src/wider2yolo.py).  The script parses a WIDER-Face-style annotation
file (image line, box-count line, N box lines, repeated), filters it by
image existence, and converts records to YOLO text and PASCAL VOC XML
outputs.

The Python code is shallowly embedded:
* strings are Lean `String` (a wrapper around `List Char`), and the
  Python string/ path helpers (`strip`, `split`, `int`, `os.path.join`,
  `os.path.normpath`, `os.path.basename`, `os.path.splitext`) are
  re-implemented over character lists, restricted to the ASCII behaviour
  exercised by the script (Unicode digit classes and underscore
  separators of Python `int` are not modeled);
* Python float arithmetic is modeled by exact rational arithmetic `ℚ`,
  and the textual rendering of a number inside an f-string is modeled by
  an exact rational renderer `ratStr` (the script specifies no fixed
  precision);
* the filesystem and PIL are external collaborators: `process_annotations`
  is parameterized by an image-size oracle `gs : String → Option (ℕ × ℕ)`
  (the model of `get_image_size`, `None` = unreadable) and
  `filter_annotations` by an existence oracle `ex : String → Bool`;
  writing a file is modeled by recording its path and content;
* the index loop of `process_annotations` consumes exactly one line per
  iteration of its implicit state machine, so it is embedded as a fold
  with an explicit mode (record boundary / after image line / inside box
  list); the loop of `filter_annotations` can move its index backwards
  (`index += 1 + num_boxes` with a negative count), so it is embedded as
  a fuelled step function over an integer index, `none` meaning the
  Python loop diverges or raises.
* calls to `logging` have no behavioural effect; the two warnings that
  claims refer to (unparsable count line, box list truncated at
  end-of-input) are counted in the output record.
-/

namespace Wider2Yolo

/-! ### Python string primitives -/

/-- The whitespace class of Python `str.strip()` / `str.split()`
restricted to ASCII. -/
def pyIsSpace (c : Char) : Bool :=
  c = ' ' || c = '\t' || c = '\n' || c = '\r' || c = '\x0b' || c = '\x0c'

/-- Model of Python `str.strip()`: drop leading and trailing whitespace. -/
def strip (s : String) : String :=
  ⟨((s.data.dropWhile pyIsSpace).reverse.dropWhile pyIsSpace).reverse⟩

/-- Split a character list at every separator character, keeping empty
pieces (the semantics of Python `str.split(sep)` with an explicit
separator). -/
def splitCharAux (p : Char → Bool) : List Char → List Char → List (List Char)
  | [], acc => [acc.reverse]
  | c :: cs, acc =>
    if p c then acc.reverse :: splitCharAux p cs []
    else splitCharAux p cs (c :: acc)

/-- Model of Python `str.split()` with no argument: split on whitespace
runs and discard empty tokens. -/
def pySplit (s : String) : List String :=
  ((splitCharAux pyIsSpace s.data []).map fun l => (⟨l⟩ : String)).filter
    fun t => t ≠ ""

/-- Returns `true` iff `small` is a suffix of `s` (Python `str.endswith`). -/
def strEndsWith (s small : String) : Bool :=
  List.isPrefixOf small.data.reverse s.data.reverse

/-- Returns `true` iff `small` is a prefix of `s` (Python `str.startswith`). -/
def strStartsWith (s small : String) : Bool :=
  List.isPrefixOf small.data s.data

/-- Numeric value of an ASCII digit. -/
def digitVal (c : Char) : Option Nat :=
  if '0' ≤ c ∧ c ≤ '9' then some (c.toNat - 48) else none

def parseDigitsAux : List Char → Nat → Option Nat
  | [], acc => some acc
  | c :: cs, acc =>
    match digitVal c with
    | some d => parseDigitsAux cs (acc * 10 + d)
    | none => none

/-- A non-empty all-digit character list, as a number. -/
def parseDigits : List Char → Option Nat
  | [] => none
  | l => parseDigitsAux l 0

/-- Model of Python `int(s)`: strip whitespace, allow one optional sign,
then a non-empty digit string; anything else raises `ValueError`
(`none`).  Underscore separators and non-ASCII digits are not modeled
(the annotation format does not use them). -/
def pyInt? (s : String) : Option ℤ :=
  match (strip s).data with
  | '+' :: cs => (parseDigits cs).map fun n => (n : ℤ)
  | '-' :: cs => (parseDigits cs).map fun n => -(n : ℤ)
  | cs => (parseDigits cs).map fun n => (n : ℤ)

/-! ### Python path primitives (POSIX flavour) -/

/-- Model of `os.path.join a b` for a single right argument (POSIX). -/
def pyJoin (a b : String) : String :=
  if strStartsWith b "/" then b
  else if a = "" || strEndsWith a "/" then a ++ b
  else a ++ "/" ++ b

def basenameAux : List Char → List Char → List Char
  | acc, [] => acc
  | acc, c :: cs => if c = '/' then basenameAux [] cs else basenameAux (acc ++ [c]) cs

/-- Model of `os.path.basename`: the part after the last `/`. -/
def pyBasename (p : String) : String := ⟨basenameAux [] p.data⟩

/-- Index of the last occurrence of `c` in `l`, counting from `i`. -/
def rfindCharAux (c : Char) : List Char → Nat → Option Nat
  | [], _ => none
  | x :: xs, i =>
    match rfindCharAux c xs (i + 1) with
    | some j => some j
    | none => if x = c then some i else none

/-- Model of `os.path.splitext(p)[0]` (POSIX): cut at the last dot,
provided it lies in the final path component and that component does not
consist only of dots up to it. -/
def splitextStem (p : String) : String :=
  let l := p.data
  let sep : ℤ := match rfindCharAux '/' l 0 with | some i => (i : ℤ) | none => -1
  let dot : ℤ := match rfindCharAux '.' l 0 with | some i => (i : ℤ) | none => -1
  if dot > sep then
    let name := (l.take dot.toNat).drop (sep + 1).toNat
    if name.any (fun c => c ≠ '.') then ⟨l.take dot.toNat⟩ else p
  else p

def strIntercalate (sep : String) : List String → String
  | [] => ""
  | [x] => x
  | x :: y :: xs => x ++ sep ++ strIntercalate sep (y :: xs)

/-- The component loop of `posixpath.normpath`: drop `""` and `"."`,
resolve `".."` against the accumulated components. -/
def normCompsAux (isAbs : Bool) : List String → List String → List String
  | [], acc => acc.reverse
  | c :: cs, acc =>
    if c = "" || c = "." then normCompsAux isAbs cs acc
    else if c = ".." then
      match acc with
      | [] => if isAbs then normCompsAux isAbs cs [] else normCompsAux isAbs cs [c]
      | top :: rest =>
        if top = ".." then normCompsAux isAbs cs (c :: acc)
        else normCompsAux isAbs cs rest
    else normCompsAux isAbs cs (c :: acc)

/-- Model of `os.path.normpath` (POSIX). -/
def normpath (p : String) : String :=
  if p = "" then "."
  else
    let abs1 := strStartsWith p "/"
    let abs2 := strStartsWith p "//" && !strStartsWith p "///"
    let comps := (splitCharAux (fun c => c = '/') p.data []).map fun l => (⟨l⟩ : String)
    let body := strIntercalate "/" (normCompsAux abs1 comps [])
    let pref := if abs2 then "//" else if abs1 then "/" else ""
    let r := pref ++ body
    if r = "" then "." else r

/-! ### Rendering numbers

The script writes the four normalized values with the default Python float
formatting; no fixed precision is specified, so the model renders the
exact rational value. -/

def natStrAux : Nat → Nat → List Char
  | 0, _ => []
  | _ + 1, 0 => []
  | fuel + 1, n => natStrAux fuel (n / 10) ++ [Char.ofNat (48 + n % 10)]

def natStr (n : Nat) : String :=
  if n = 0 then "0" else ⟨natStrAux (n + 1) n⟩

def intStr (i : ℤ) : String :=
  if i < 0 then "-" ++ natStr (-i).toNat else natStr i.toNat

/-- Exact text rendering of a rational (stands in for the Python float
rendering inside the f-string of `convert_to_yolo`). -/
def ratStr (q : ℚ) : String :=
  if q.den = 1 then intStr q.num else intStr q.num ++ "/" ++ natStr q.den

/-! ### Coordinate Converter (`convert_to_yolo`, lines 9-15) -/

/-- Line 11 of the source: `x_center = (xmin + width / 2) / img_width`. -/
def x_center (xmin width : ℤ) (img_width : ℚ) : ℚ :=
  ((xmin : ℚ) + (width : ℚ) / 2) / img_width

/-- Line 12 of the source: `y_center = (ymin + height / 2) / img_height`. -/
def y_center (ymin height : ℤ) (img_height : ℚ) : ℚ :=
  ((ymin : ℚ) + (height : ℚ) / 2) / img_height

/-- Line 13 of the source: `width_norm = width / img_width`. -/
def width_norm (width : ℤ) (img_width : ℚ) : ℚ :=
  (width : ℚ) / img_width

/-- Line 14 of the source: `height_norm = height / img_height`. -/
def height_norm (height : ℤ) (img_height : ℚ) : ℚ :=
  (height : ℚ) / img_height

/-- Model of `convert_to_yolo(bbox, img_width, img_height)`: unpack the 4-element
box and format `"0 {x_center} {y_center} {width_norm} {height_norm}"`.
The parser only ever passes 4-element lists; other shapes would raise in
Python and are mapped to `""`. -/
def convert_to_yolo (bbox : List ℤ) (img_width img_height : ℚ) : String :=
  match bbox with
  | [xmin, ymin, width, height] =>
    "0 " ++ ratStr (x_center xmin width img_width) ++ " " ++
      ratStr (y_center ymin height img_height) ++ " " ++
      ratStr (width_norm width img_width) ++ " " ++
      ratStr (height_norm height img_height)
  | _ => ""

/-! ### Claims C1 and C4 -/

/-- C1: for every bounding box `(xmin, ymin, width, height)` and positive
image dimensions, `convert_to_yolo` produces the YOLO record with class
id 0 and exactly the four fractional fields
`(xmin + width/2) / imgWidth`, `(ymin + height/2) / imgHeight`,
`width / imgWidth`, `height / imgHeight`, rendered as the single
space-separated line `0 <xc> <yc> <w> <h>`, with no clamping of
out-of-range values (the fields are the raw quotients). -/
theorem convert_to_yolo_formula (xmin ymin width height : ℤ) (W H : ℚ)
    (hW : 0 < W) (hH : 0 < H) :
    convert_to_yolo [xmin, ymin, width, height] W H =
      "0 " ++ ratStr (((xmin : ℚ) + (width : ℚ) / 2) / W) ++ " " ++
        ratStr (((ymin : ℚ) + (height : ℚ) / 2) / H) ++ " " ++
        ratStr ((width : ℚ) / W) ++ " " ++
        ratStr ((height : ℚ) / H) := rfl

/-- Witness for C1 at the box `(5, 5, 10, 10)` in a `2 × 2` image: the
hypotheses hold and the normalized x-center `(5 + 5)/2 = 5` exceeds `1`,
exhibiting the absence of clamping. -/
theorem convert_to_yolo_formula_witness :
    (0 : ℚ) < 2 ∧
      convert_to_yolo [5, 5, 10, 10] 2 2 =
        "0 " ++ ratStr (((5 : ℤ) + ((10 : ℤ) : ℚ) / 2) / 2) ++ " " ++
          ratStr (((5 : ℤ) + ((10 : ℤ) : ℚ) / 2) / 2) ++ " " ++
          ratStr (((10 : ℤ) : ℚ) / 2) ++ " " ++ ratStr (((10 : ℤ) : ℚ) / 2) ∧
      (1 : ℚ) < x_center 5 10 2 :=
  ⟨by norm_num, convert_to_yolo_formula 5 5 10 10 2 2 (by norm_num) (by norm_num),
    by norm_num [x_center]⟩

/-- C4: over exact rational arithmetic, decoding the YOLO record and
recovering the absolute box via `x = xc·W − (wNorm·W)/2`,
`y = yc·H − (hNorm·H)/2`, `w = wNorm·W`, `h = hNorm·H` reconstructs the
original `(xmin, ymin, width, height)` exactly (round-trip law). -/
theorem yolo_roundtrip (xmin ymin width height : ℤ) (W H : ℚ)
    (hW : 0 < W) (hH : 0 < H) :
    x_center xmin width W * W - width_norm width W * W / 2 = (xmin : ℚ) ∧
      y_center ymin height H * H - height_norm height H * H / 2 = (ymin : ℚ) ∧
      width_norm width W * W = (width : ℚ) ∧
      height_norm height H * H = (height : ℚ) := by
  have hW' : W ≠ 0 := ne_of_gt hW
  have hH' : H ≠ 0 := ne_of_gt hH
  refine ⟨?_, ?_, ?_, ?_⟩ <;>
    simp only [x_center, y_center, width_norm, height_norm] <;>
    field_simp <;> ring

/-! ### VOC Document Builder (`create_voc_xml`, lines 17-60)

The `xml.etree.ElementTree` tree built by `create_voc_xml` has a fixed
shape, so it is embedded as a record whose fields are, in document
order, the sub-elements the code creates. -/

/-- One `object` element of the VOC document (lines 43-53). -/
structure VocObject where
  name : String
  pose : String
  truncated : Nat
  difficult : Nat
  xmin : ℤ
  ymin : ℤ
  xmax : ℤ
  ymax : ℤ
deriving DecidableEq

/-- The `annotation` document (lines 18-53), fields in creation order:
`folder`, `filename`, `source/database`, `size/{width,height,depth}`,
`segmented`, then the `object` elements. -/
structure VocDoc where
  folder : String
  filename : String
  database : String
  width : Nat
  height : Nat
  depth : Nat
  segmented : Nat
  objects : List VocObject
deriving DecidableEq

/-- The object loop (lines 38-53): boxes whose length is not exactly 4
are skipped with a warning; a valid box `[x, y, w, h]` becomes an
`object` with `bndbox = (x, y, x + w, y + h)`. -/
def mkVocObjects : List (List ℤ) → List VocObject
  | [] => []
  | b :: bs =>
    match b with
    | [x, y, w, h] =>
      { name := "face", pose := "Unspecified", truncated := 0, difficult := 0,
        xmin := x, ymin := y, xmax := x + w, ymax := y + h } :: mkVocObjects bs
    | _ => mkVocObjects bs

/-- Model of `create_voc_xml(filename, width, height, bounding_boxes, output_dir)`:
returns the path the XML file is written to (line 56:
`os.path.join(output_dir, os.path.splitext(os.path.basename(filename))[0] + ".xml")`)
and the document tree. -/
def create_voc_xml (filename : String) (width height : Nat)
    (bounding_boxes : List (List ℤ)) (output_dir : String) : String × VocDoc :=
  (pyJoin output_dir (splitextStem (pyBasename filename) ++ ".xml"),
    { folder := pyBasename output_dir,
      filename := pyBasename filename,
      database := "WIDER Face",
      width := width, height := height, depth := 3,
      segmented := 0,
      objects := mkVocObjects bounding_boxes })

/-! ### Claim C3 -/

lemma basenameAux_no_slash (l : List Char) :
    ∀ acc, (∀ c ∈ acc, c ≠ '/') → ∀ c ∈ basenameAux acc l, c ≠ '/' := by
  induction l with
  | nil => intro acc hacc c hc; exact hacc c hc
  | cons x xs ih =>
    intro acc hacc c hc
    by_cases hx : x = '/'
    · rw [basenameAux, if_pos hx] at hc
      exact ih [] (by simp) c hc
    · rw [basenameAux, if_neg hx] at hc
      refine ih (acc ++ [x]) ?_ c hc
      intro d hd
      rcases List.mem_append.1 hd with h | h
      · exact hacc d h
      · simp only [List.mem_singleton] at h; exact h ▸ hx

lemma basenameAux_of_no_slash (l : List Char) :
    ∀ acc, (∀ c ∈ l, c ≠ '/') → basenameAux acc l = acc ++ l := by
  induction l with
  | nil => intro acc _; simp [basenameAux]
  | cons x xs ih =>
    intro acc hl
    have hx : x ≠ '/' := hl x (by simp)
    rw [basenameAux, if_neg hx, ih (acc ++ [x]) (fun c hc => hl c (by simp [hc]))]
    simp

lemma pyBasename_idem (p : String) : pyBasename (pyBasename p) = pyBasename p := by
  have h := basenameAux_no_slash p.data [] (by simp)
  show (⟨basenameAux [] (basenameAux [] p.data)⟩ : String) = ⟨basenameAux [] p.data⟩
  rw [basenameAux_of_no_slash _ [] h]
  simp

/-- Counterexample to C3: for the record with relative image path
`a/b.jpg` and VOC output directory `out`, the XML file is written to
`out/b.xml`, not to `out/a/b.xml` as the path schema of the claim,
`<outputVocDir>/<imageRelativeStemPath>.xml` requires — the relative
subdirectory `a/` is not preserved. -/
theorem voc_path_not_relative_cex :
    (create_voc_xml "a/b.jpg" 10 10 [] "out").1 = "out/b.xml" ∧
      (create_voc_xml "a/b.jpg" 10 10 [] "out").1 ≠ "out/a/b.xml" := by
  constructor <;> decide

/-- C3 (amended): the VOC XML file is written to
`<outputVocDir>/<stem of basename(p)>.xml`; the relative subdirectory
structure of `p` is dropped, so the output path depends on `p` only
through `basename p` and two images with the same basename in different
subdirectories collide on the same output path. -/
theorem voc_path_flattens (filename : String) (width height : Nat)
    (bounding_boxes : List (List ℤ)) (output_dir : String) :
    (create_voc_xml filename width height bounding_boxes output_dir).1 =
        pyJoin output_dir (splitextStem (pyBasename filename) ++ ".xml") ∧
      (create_voc_xml filename width height bounding_boxes output_dir).1 =
        (create_voc_xml (pyBasename filename) width height bounding_boxes output_dir).1 := by
  refine ⟨rfl, ?_⟩
  show pyJoin _ (splitextStem (pyBasename filename) ++ ".xml") =
    pyJoin _ (splitextStem (pyBasename (pyBasename filename)) ++ ".xml")
  rw [pyBasename_idem]

/-- Witness for C4 at the box `(449, 330, 122, 149)` in a `1024 × 683`
image. -/
theorem yolo_roundtrip_witness :
    (0 : ℚ) < 1024 ∧ (0 : ℚ) < 683 ∧
      (x_center 449 122 1024 * 1024 - width_norm 122 1024 * 1024 / 2 = ((449 : ℤ) : ℚ) ∧
        y_center 330 149 683 * 683 - height_norm 149 683 * 683 / 2 = ((330 : ℤ) : ℚ) ∧
        width_norm 122 1024 * 1024 = ((122 : ℤ) : ℚ) ∧
        height_norm 149 683 * 683 = ((149 : ℤ) : ℚ)) :=
  ⟨by norm_num, by norm_num,
    yolo_roundtrip 449 330 122 149 1024 683 (by norm_num) (by norm_num)⟩

/-! ### Box-line parsing (lines 181-192 of `process_annotations`) -/

/-- Model of `list(map(int, toks))`: all tokens must parse, the first failure
raises (`none`). -/
def parseInts : List String → Option (List ℤ)
  | [] => some []
  | t :: ts =>
    match pyInt? t, parseInts ts with
    | some v, some vs => some (v :: vs)
    | _, _ => none

/-- One box line (already stripped): split on whitespace; if at least 4
tokens, convert the first four with `int`, else the line is dropped
(lines 182-191). -/
def parseBoxLine (s : String) : Option (List ℤ) :=
  let toks := pySplit s
  if 4 ≤ toks.length then parseInts (toks.take 4) else none

/-- The boxes a record keeps from its raw box lines: each line is
stripped, parsed, and dropped if malformed. -/
def boxParse (bl : List String) : List (List ℤ) :=
  bl.filterMap fun l => parseBoxLine (strip l)

/-- The drop condition as the specification words it: fewer than 4
whitespace-separated tokens, or the first four tokens do not all parse
as integers. -/
def droppedPerSpec (s : String) : Bool :=
  let toks := pySplit (strip s)
  decide (toks.length < 4) || (toks.take 4).any fun t => (pyInt? t).isNone

lemma parseInts_eq_none_iff (ts : List String) :
    parseInts ts = none ↔ ts.any (fun t => (pyInt? t).isNone) = true := by
  induction ts with
  | nil => simp [parseInts]
  | cons t ts ih =>
    simp only [parseInts, List.any_cons, Bool.or_eq_true]
    cases h : pyInt? t with
    | none => simp [h]
    | some v =>
      cases h2 : parseInts ts with
      | none => simp [h, h2, ih.1 h2]
      | some vs =>
        simp only [h, h2, Option.isNone_some]
        constructor
        · intro hc; exact absurd hc (by simp)
        · rintro (hc | hc)
          · cases hc
          · exact absurd (ih.2 hc) (by simp [h2])

lemma parseBoxLine_eq_none_iff (l : String) :
    parseBoxLine (strip l) = none ↔ droppedPerSpec l = true := by
  unfold parseBoxLine droppedPerSpec
  simp only [Bool.or_eq_true, decide_eq_true_eq]
  by_cases h : 4 ≤ (pySplit (strip l)).length
  · rw [if_pos h, parseInts_eq_none_iff]
    constructor
    · intro hc; exact Or.inr hc
    · rintro (hc | hc)
      · omega
      · exact hc
  · rw [if_neg h]
    have hlt : (pySplit (strip l)).length < 4 := Nat.not_le.1 h
    simp [hlt]

/-- Dropped lines and kept boxes partition the raw box lines. -/
lemma boxParse_length (bl : List String) :
    (boxParse bl).length + (bl.filter droppedPerSpec).length = bl.length := by
  induction bl with
  | nil => simp [boxParse]
  | cons l bl ih =>
    cases h : parseBoxLine (strip l) with
    | none =>
      have hd : droppedPerSpec l = true := (parseBoxLine_eq_none_iff l).1 h
      simp only [boxParse, List.filterMap_cons, h, List.filter_cons, hd, if_true,
        List.length_cons]
      rw [← boxParse]
      omega
    | some b =>
      have hd : droppedPerSpec l = false := by
        by_contra hc
        rw [Bool.not_eq_false] at hc
        rw [(parseBoxLine_eq_none_iff l).2 hc] at h
        cases h
      simp only [boxParse, List.filterMap_cons, h, List.filter_cons, hd,
        if_false, Bool.false_eq_true, List.length_cons]
      rw [← boxParse]
      omega

/-! ### The conversion pass (`process_annotations`, lines 143-229)

The index loop consumes exactly one input line per iteration, in one of
three implicit positions: at a record boundary (line 157), right after
an image line (line 166), or inside a box list (line 181).  It is
embedded as a fold over the lines with that position as explicit mode.
List-valued fields of the output are in chronological order. -/

/-- Model of `line.lower().endswith((".jpg", ".jpeg"))` of line 157. -/
def isImageLine (line : String) : Bool :=
  let low : String := ⟨line.data.map Char.toLower⟩
  strEndsWith low ".jpg" || strEndsWith low ".jpeg"

/-- Observable effects of a run of `process_annotations`: files written
(path and content), the two success counters of lines 212/220, and the
two per-record warnings the claims refer to (unparsable count line,
line 172; box list truncated at end-of-input, line 179). -/
structure ProcOut where
  yolo : List (String × List String)
  voc : List (String × VocDoc)
  yoloCount : Nat
  vocCount : Nat
  countWarns : Nat
  truncWarns : Nat
deriving DecidableEq

def ProcOut.empty : ProcOut := ⟨[], [], 0, 0, 0, 0⟩

def ProcOut.append (a b : ProcOut) : ProcOut :=
  ⟨a.yolo ++ b.yolo, a.voc ++ b.voc, a.yoloCount + b.yoloCount,
    a.vocCount + b.vocCount, a.countWarns + b.countWarns,
    a.truncWarns + b.truncWarns⟩

lemma ProcOut.empty_append (a : ProcOut) : ProcOut.empty.append a = a := by
  cases a; simp [ProcOut.append, ProcOut.empty]

lemma ProcOut.append_empty (a : ProcOut) : a.append ProcOut.empty = a := by
  cases a; simp [ProcOut.append, ProcOut.empty]

lemma ProcOut.append_assoc (a b c : ProcOut) :
    (a.append b).append c = a.append (b.append c) := by
  cases a; cases b; cases c
  simp [ProcOut.append, List.append_assoc, Nat.add_assoc]

/-- Parser position between two lines. -/
inductive PMode where
  | boundary : PMode
  | afterImage (img : String) : PMode
  | inBoxes (img : String) (remaining : Nat) (boxes : List (List ℤ)) : PMode
deriving DecidableEq

/-- Lines 194-222: once a record `(img, boxes)` is complete, resolve
`image_dir + normpath(img)`, ask the size oracle, and on success write
the YOLO file (`output_yolo_dir + splitext(normpath(img))[0] + ".txt"`,
one converted line per kept box) and the VOC file; on failure (line 199)
skip the record producing nothing. -/
def emitRecord (gs : String → Option (Nat × Nat))
    (image_dir output_yolo_dir output_voc_dir : String)
    (img : String) (boxes : List (List ℤ)) : ProcOut :=
  let normalized := normpath img
  match gs (pyJoin image_dir normalized) with
  | none => ProcOut.empty
  | some (w, h) =>
    { yolo := [(pyJoin output_yolo_dir (splitextStem normalized ++ ".txt"),
        boxes.map fun b => convert_to_yolo b (w : ℚ) (h : ℚ))],
      voc := [create_voc_xml normalized w h boxes output_voc_dir],
      yoloCount := 1, vocCount := 1, countWarns := 0, truncWarns := 0 }

/-- Effect of consuming one line in a given mode: next mode plus the
output produced by that line.
* boundary (line 157): an image line opens a record, anything else is
  logged and skipped;
* after the image line (lines 166-174): `int` failure logs a warning and
  returns to boundary scanning; a parsed count `n` starts the box loop,
  which runs `max n 0` times (`range`), so `n ≤ 0` completes the record
  immediately;
* inside the box list (lines 181-192): parse-or-drop the line; after the
  last owed line the record is emitted. -/
def pstepDelta (gs : String → Option (Nat × Nat))
    (image_dir output_yolo_dir output_voc_dir : String) :
    PMode → String → PMode × ProcOut
  | .boundary, l =>
    let line := strip l
    if isImageLine line then (.afterImage line, ProcOut.empty)
    else (.boundary, ProcOut.empty)
  | .afterImage img, l =>
    match pyInt? (strip l) with
    | none => (.boundary, ⟨[], [], 0, 0, 1, 0⟩)
    | some n =>
      if n.toNat = 0 then
        (.boundary, emitRecord gs image_dir output_yolo_dir output_voc_dir img [])
      else (.inBoxes img n.toNat [], ProcOut.empty)
  | .inBoxes img r boxes, l =>
    let boxes' :=
      match parseBoxLine (strip l) with
      | some b => boxes ++ [b]
      | none => boxes
    if r ≤ 1 then
      (.boundary, emitRecord gs image_dir output_yolo_dir output_voc_dir img boxes')
    else (.inBoxes img (r - 1) boxes', ProcOut.empty)

def pstep (gs : String → Option (Nat × Nat))
    (image_dir output_yolo_dir output_voc_dir : String) :
    PMode × ProcOut → String → PMode × ProcOut := fun st l =>
  let d := pstepDelta gs image_dir output_yolo_dir output_voc_dir st.1 l
  (d.1, st.2.append d.2)

def procFold (gs : String → Option (Nat × Nat))
    (image_dir output_yolo_dir output_voc_dir : String)
    (st : PMode × ProcOut) (lines : List String) : PMode × ProcOut :=
  lines.foldl (pstep gs image_dir output_yolo_dir output_voc_dir) st

/-- End of input: a record waiting for its count line is abandoned with
a warning (lines 161-163); a record still owed box lines logs the
truncation warning of line 179 and is processed with the boxes read so
far (lines 194-222). -/
def pfinal (gs : String → Option (Nat × Nat))
    (image_dir output_yolo_dir output_voc_dir : String) : PMode → ProcOut
  | .boundary => ProcOut.empty
  | .afterImage _ => ProcOut.empty
  | .inBoxes img _ boxes =>
    let e := emitRecord gs image_dir output_yolo_dir output_voc_dir img boxes
    { e with truncWarns := e.truncWarns + 1 }

/-- Model of `process_annotations(file_path, output_yolo_dir, output_voc_dir,
image_dir)` on the list of lines of the annotation file. -/
def process_annotations (gs : String → Option (Nat × Nat))
    (image_dir output_yolo_dir output_voc_dir : String)
    (lines : List String) : ProcOut :=
  let s := procFold gs image_dir output_yolo_dir output_voc_dir
    (.boundary, ProcOut.empty) lines
  s.2.append (pfinal gs image_dir output_yolo_dir output_voc_dir s.1)

/-! ### Fold lemmas for the conversion pass -/

lemma procFold_nil (gs : String → Option (Nat × Nat)) (a b c : String)
    (st : PMode × ProcOut) : procFold gs a b c st [] = st := rfl

lemma procFold_cons (gs : String → Option (Nat × Nat)) (a b c : String)
    (st : PMode × ProcOut) (x : String) (ls : List String) :
    procFold gs a b c st (x :: ls) =
      procFold gs a b c (pstep gs a b c st x) ls := rfl

/-- The output accumulator is write-only: a fold from `(m, out)` is the
fold from `(m, ∅)` with `out` prepended. -/
lemma procFold_out (gs : String → Option (Nat × Nat)) (a b c : String)
    (ls : List String) (m : PMode) (out : ProcOut) :
    procFold gs a b c (m, out) ls =
      ((procFold gs a b c (m, ProcOut.empty) ls).1,
        out.append (procFold gs a b c (m, ProcOut.empty) ls).2) := by
  induction ls generalizing m out with
  | nil => simp [procFold, ProcOut.append_empty]
  | cons l ls ih =>
    rw [procFold_cons, procFold_cons]
    have h1 : pstep gs a b c (m, out) l =
        ((pstepDelta gs a b c m l).1, out.append (pstepDelta gs a b c m l).2) := rfl
    have h2 : pstep gs a b c (m, ProcOut.empty) l =
        ((pstepDelta gs a b c m l).1,
          ProcOut.empty.append (pstepDelta gs a b c m l).2) := rfl
    rw [h1, h2, ProcOut.empty_append,
      ih (pstepDelta gs a b c m l).1 (out.append (pstepDelta gs a b c m l).2),
      ih (pstepDelta gs a b c m l).1 (pstepDelta gs a b c m l).2,
      ProcOut.append_assoc]

lemma boxParse_cons (x : String) (bl : List String) :
    boxParse (x :: bl) = boxParse [x] ++ boxParse bl := by
  cases h : parseBoxLine (strip x) <;>
    simp [boxParse, List.filterMap_cons, h]

lemma pstep_inBoxes (gs : String → Option (Nat × Nat)) (a b c img : String)
    (k : Nat) (boxes : List (List ℤ)) (out : ProcOut) (x : String) :
    pstep gs a b c (.inBoxes img k boxes, out) x =
      if k ≤ 1 then
        (.boundary, out.append (emitRecord gs a b c img (boxes ++ boxParse [x])))
      else (.inBoxes img (k - 1) (boxes ++ boxParse [x]), out) := by
  cases h : parseBoxLine (strip x) with
  | none =>
    by_cases h1 : k ≤ 1 <;>
      simp [pstep, pstepDelta, h, h1, boxParse, List.filterMap_cons,
        ProcOut.append_empty]
  | some bb =>
    by_cases h1 : k ≤ 1 <;>
      simp [pstep, pstepDelta, h, h1, boxParse, List.filterMap_cons,
        ProcOut.append_empty]

/-- The box loop of lines 177-192 with exactly the owed number of lines
available consumes them all, keeps the parseable ones, and returns to
boundary scanning, emitting the record once. -/
lemma procFold_boxes (gs : String → Option (Nat × Nat)) (a b c img : String) :
    ∀ (bl : List String) (k : Nat) (boxes : List (List ℤ)) (out : ProcOut)
      (rest : List String), bl.length = k → 0 < k →
      procFold gs a b c (.inBoxes img k boxes, out) (bl ++ rest) =
        procFold gs a b c
          (.boundary, out.append (emitRecord gs a b c img (boxes ++ boxParse bl)))
          rest := by
  intro bl
  induction bl with
  | nil => intro k boxes out rest hk hpos; simp at hk; omega
  | cons x bl ih =>
    intro k boxes out rest hk hpos
    have hk' : k = bl.length + 1 := by simp at hk; omega
    subst hk'
    rw [List.cons_append, procFold_cons, pstep_inBoxes]
    cases bl with
    | nil =>
      rw [if_pos (by simp)]
      simp [boxParse]
    | cons y bl' =>
      rw [if_neg (by simp)]
      have hlen : (y :: bl').length = (y :: bl').length := rfl
      rw [show (y :: bl').length + 1 - 1 = (y :: bl').length from by omega]
      rw [ih ((y :: bl').length) (boxes ++ boxParse [x]) out rest hlen (by simp)]
      rw [boxParse_cons x (y :: bl'), ← List.append_assoc]

/-- The box loop when the input ends early: everything remaining is
consumed, the kept boxes accumulate, and the mode still owes
`k - bl.length` lines. -/
lemma procFold_boxes_trunc (gs : String → Option (Nat × Nat)) (a b c img : String) :
    ∀ (bl : List String) (k : Nat) (boxes : List (List ℤ)) (out : ProcOut),
      bl.length < k →
      procFold gs a b c (.inBoxes img k boxes, out) bl =
        (.inBoxes img (k - bl.length) (boxes ++ boxParse bl), out) := by
  intro bl
  induction bl with
  | nil => intro k boxes out h; simp [procFold_nil, boxParse]
  | cons x bl ih =>
    intro k boxes out h
    rw [procFold_cons, pstep_inBoxes, if_neg (by simp at h ⊢; omega)]
    rw [ih (k - 1) (boxes ++ boxParse [x]) out (by simp at h; omega)]
    have h1 : k - 1 - bl.length = k - (x :: bl).length := by simp; omega
    rw [h1, boxParse_cons x bl, ← List.append_assoc]

/-- A complete record (image line, parsed count line, exactly the owed
box lines) is consumed as a unit: its lines never desynchronize the
parse, the record is emitted once, and scanning resumes right after. -/
lemma procFold_record (gs : String → Option (Nat × Nat)) (a b c : String)
    (l cl : String) (bl rest : List String) (n : ℤ) (out : ProcOut)
    (himg : isImageLine (strip l) = true)
    (hcl : pyInt? (strip cl) = some n)
    (hlen : bl.length = n.toNat) :
    procFold gs a b c (.boundary, out) (l :: cl :: (bl ++ rest)) =
      procFold gs a b c
        (.boundary, out.append (emitRecord gs a b c (strip l) (boxParse bl)))
        rest := by
  rw [procFold_cons]
  have h1 : pstep gs a b c (.boundary, out) l = (.afterImage (strip l), out) := by
    simp [pstep, pstepDelta, himg, ProcOut.append_empty]
  rw [h1, procFold_cons]
  by_cases h0 : n.toNat = 0
  · have hbl : bl = [] := List.length_eq_zero.1 (by omega)
    subst hbl
    have h2 : pstep gs a b c (.afterImage (strip l), out) cl =
        (.boundary, out.append (emitRecord gs a b c (strip l) [])) := by
      simp [pstep, pstepDelta, hcl, h0]
    rw [h2]
    simp [boxParse]
  · have h2 : pstep gs a b c (.afterImage (strip l), out) cl =
        (.inBoxes (strip l) n.toNat [], out) := by
      simp [pstep, pstepDelta, hcl, h0, ProcOut.append_empty]
    rw [h2, procFold_boxes gs a b c (strip l) bl n.toNat [] out rest hlen (by omega)]
    simp

/-- Running `process_annotations` on a file beginning with a complete record:
the record contributes its own outputs, and the remainder of the file is
processed independently after it. -/
lemma process_cons_record (gs : String → Option (Nat × Nat)) (a b c : String)
    (l cl : String) (bl rest : List String) (n : ℤ)
    (himg : isImageLine (strip l) = true)
    (hcl : pyInt? (strip cl) = some n)
    (hlen : bl.length = n.toNat) :
    process_annotations gs a b c (l :: cl :: (bl ++ rest)) =
      (emitRecord gs a b c (strip l) (boxParse bl)).append
        (process_annotations gs a b c rest) := by
  unfold process_annotations
  rw [procFold_record gs a b c l cl bl rest n ProcOut.empty himg hcl hlen,
    ProcOut.empty_append,
    procFold_out gs a b c rest PMode.boundary
      (emitRecord gs a b c (strip l) (boxParse bl)),
    ProcOut.append_assoc]

/-! ### Claims C2, C6, C7, C8, C9 -/

/-- Size oracle for witnesses: every image unreadable. -/
def gsNone : String → Option (Nat × Nat) := fun _ => none

/-- Size oracle for witnesses: every image readable, `10 × 10`. -/
def gsTen : String → Option (Nat × Nat) := fun _ => some (10, 10)

/-- C2: a record whose count line parses to `n` and that is followed by
`n` lines consumes exactly those `n` lines as box input (malformed lines
advance the input like any other: the equation holds for arbitrary line
contents, and scanning resumes exactly at `rest`), the record keeps the
boxes of the parseable lines, and the number of kept boxes plus the
number of lines dropped by the criterion of the specification (fewer than 4
whitespace-separated tokens, or the first four tokens do not all parse
as integers) equals the declared count. -/
theorem record_consumes_declared_count (gs : String → Option (Nat × Nat))
    (image_dir yolo_dir voc_dir : String) (l cl : String) (bl rest : List String)
    (n : ℤ)
    (himg : isImageLine (strip l) = true)
    (hcl : pyInt? (strip cl) = some n)
    (hlen : bl.length = n.toNat) :
    process_annotations gs image_dir yolo_dir voc_dir (l :: cl :: (bl ++ rest)) =
        (emitRecord gs image_dir yolo_dir voc_dir (strip l) (boxParse bl)).append
          (process_annotations gs image_dir yolo_dir voc_dir rest) ∧
      (boxParse bl).length + (bl.filter droppedPerSpec).length = n.toNat :=
  ⟨process_cons_record gs image_dir yolo_dir voc_dir l cl bl rest n himg hcl hlen,
    by rw [← hlen]; exact boxParse_length bl⟩

/-- Witness for C2: a record declaring 3 boxes over the lines
`"1 2 3 4"`, `"bad line"`, `"5 6 7 8"`; the malformed middle line is
dropped but still consumed. -/
theorem record_consumes_declared_count_witness :
    process_annotations gsNone "imgs" "yolo" "voc"
        ("a.jpg" :: "3" :: (["1 2 3 4", "bad line", "5 6 7 8"] ++ [])) =
        (emitRecord gsNone "imgs" "yolo" "voc" (strip "a.jpg")
            (boxParse ["1 2 3 4", "bad line", "5 6 7 8"])).append
          (process_annotations gsNone "imgs" "yolo" "voc" []) ∧
      (boxParse ["1 2 3 4", "bad line", "5 6 7 8"]).length +
          (["1 2 3 4", "bad line", "5 6 7 8"].filter droppedPerSpec).length =
        (3 : ℤ).toNat :=
  record_consumes_declared_count gsNone "imgs" "yolo" "voc" "a.jpg" "3"
    ["1 2 3 4", "bad line", "5 6 7 8"] [] 3 (by decide) (by decide) (by decide)

/-- Counterexample to C6: the count line `"-1"` does not parse as a
*non-negative* integer, yet the Python `int` accepts it, so contrary to
the claim no warning is logged and boundary scanning does not resume:
the record is completed with an empty box list and its outputs are
written (one YOLO and one VOC file for `a.jpg`, zero count-line
warnings). -/
theorem negative_count_cex :
    pyInt? (strip "-1") = some (-1) ∧
      (process_annotations gsTen "imgs" "yolo" "voc" ["a.jpg", "-1"]).countWarns = 0 ∧
      (process_annotations gsTen "imgs" "yolo" "voc" ["a.jpg", "-1"]).yoloCount = 1 ∧
      (process_annotations gsTen "imgs" "yolo" "voc" ["a.jpg", "-1"]).vocCount = 1 := by
  refine ⟨by decide, ?_, ?_, ?_⟩ <;> decide

/-- C6 (amended): for every image-path line whose following line fails
Python `int` (e.g. a non-numeric line — but *not* a negative integer,
which `int` accepts and which silently yields an empty box list with the
record still processed), the parser logs one warning, skips only that
line, attributes no boxes and no outputs to the record, and resumes
boundary scanning at the next line. -/
theorem bad_count_line_skips_one (gs : String → Option (Nat × Nat))
    (image_dir yolo_dir voc_dir : String) (l cl : String) (rest : List String)
    (himg : isImageLine (strip l) = true)
    (hbad : pyInt? (strip cl) = none) :
    process_annotations gs image_dir yolo_dir voc_dir (l :: cl :: rest) =
      ProcOut.append ⟨[], [], 0, 0, 1, 0⟩
        (process_annotations gs image_dir yolo_dir voc_dir rest) := by
  unfold process_annotations
  rw [procFold_cons]
  have h1 : pstep gs image_dir yolo_dir voc_dir (.boundary, ProcOut.empty) l =
      (.afterImage (strip l), ProcOut.empty) := by
    simp [pstep, pstepDelta, himg, ProcOut.append_empty]
  rw [h1, procFold_cons]
  have h2 : pstep gs image_dir yolo_dir voc_dir
      (.afterImage (strip l), ProcOut.empty) cl =
      (.boundary, ProcOut.empty.append ⟨[], [], 0, 0, 1, 0⟩) := by
    simp [pstep, pstepDelta, hbad]
  rw [h2, ProcOut.empty_append,
    procFold_out gs image_dir yolo_dir voc_dir rest PMode.boundary
      (⟨[], [], 0, 0, 1, 0⟩ : ProcOut),
    ProcOut.append_assoc]

/-- Witness for the amended C6 at the non-numeric count line `"abc"`. -/
theorem bad_count_line_skips_one_witness :
    process_annotations gsTen "imgs" "yolo" "voc" ["a.jpg", "abc"] =
      ProcOut.append ⟨[], [], 0, 0, 1, 0⟩
        (process_annotations gsTen "imgs" "yolo" "voc" []) :=
  bad_count_line_skips_one gsTen "imgs" "yolo" "voc" "a.jpg" "abc" []
    (by decide) (by decide)

/-- C7: a complete record whose image the size oracle cannot read
produces no YOLO file and no VOC file, leaves every counter unchanged,
and processing continues with the next record exactly as if those record
lines were absent; the batch is not aborted (the model is total). -/
theorem unreadable_image_skips_record (gs : String → Option (Nat × Nat))
    (image_dir yolo_dir voc_dir : String) (l cl : String) (bl rest : List String)
    (n : ℤ)
    (himg : isImageLine (strip l) = true)
    (hcl : pyInt? (strip cl) = some n)
    (hlen : bl.length = n.toNat)
    (hgs : gs (pyJoin image_dir (normpath (strip l))) = none) :
    process_annotations gs image_dir yolo_dir voc_dir (l :: cl :: (bl ++ rest)) =
      process_annotations gs image_dir yolo_dir voc_dir rest := by
  rw [process_cons_record gs image_dir yolo_dir voc_dir l cl bl rest n himg hcl hlen]
  rw [show emitRecord gs image_dir yolo_dir voc_dir (strip l) (boxParse bl) =
      ProcOut.empty by simp [emitRecord, hgs]]
  rw [ProcOut.empty_append]

/-- Witness for C7: a one-box record whose image is unreadable. -/
theorem unreadable_image_skips_record_witness :
    process_annotations gsNone "imgs" "yolo" "voc"
        ("a.jpg" :: "1" :: (["1 2 3 4"] ++ ["b.jpg"])) =
      process_annotations gsNone "imgs" "yolo" "voc" ["b.jpg"] :=
  unreadable_image_skips_record gsNone "imgs" "yolo" "voc" "a.jpg" "1"
    ["1 2 3 4"] ["b.jpg"] 1 (by decide) (by decide) (by decide) (by decide)

/-- C8: a record with declared count 0 and a readable image is complete
and valid: a blank YOLO file (empty line list) is written, and the VOC
document has zero `object` elements but all other fixed fields (folder,
filename, database "WIDER Face", size with depth 3, segmented 0); both
success counters advance and processing continues. -/
theorem zero_count_record_outputs (gs : String → Option (Nat × Nat))
    (image_dir yolo_dir voc_dir : String) (l cl : String) (rest : List String)
    (W H : Nat)
    (himg : isImageLine (strip l) = true)
    (hcl : pyInt? (strip cl) = some 0)
    (hgs : gs (pyJoin image_dir (normpath (strip l))) = some (W, H)) :
    process_annotations gs image_dir yolo_dir voc_dir (l :: cl :: rest) =
      ProcOut.append
        ⟨[(pyJoin yolo_dir (splitextStem (normpath (strip l)) ++ ".txt"), [])],
          [(pyJoin voc_dir
              (splitextStem (pyBasename (normpath (strip l))) ++ ".xml"),
            { folder := pyBasename voc_dir,
              filename := pyBasename (normpath (strip l)),
              database := "WIDER Face", width := W, height := H, depth := 3,
              segmented := 0, objects := [] })],
          1, 1, 0, 0⟩
        (process_annotations gs image_dir yolo_dir voc_dir rest) := by
  have h := process_cons_record gs image_dir yolo_dir voc_dir l cl [] rest 0
    himg hcl (by simp)
  simp only [List.nil_append] at h
  rw [h]
  congr 1
  simp [emitRecord, hgs, boxParse, create_voc_xml, mkVocObjects]

/-- Witness for C8: a zero-box record over a readable `10 × 10` image. -/
theorem zero_count_record_outputs_witness :
    process_annotations gsTen "imgs" "yolo" "voc" ["sub/a.jpg", "0"] =
      ProcOut.append
        ⟨[(pyJoin "yolo" (splitextStem (normpath (strip "sub/a.jpg")) ++ ".txt"), [])],
          [(pyJoin "voc"
              (splitextStem (pyBasename (normpath (strip "sub/a.jpg"))) ++ ".xml"),
            { folder := pyBasename "voc",
              filename := pyBasename (normpath (strip "sub/a.jpg")),
              database := "WIDER Face", width := 10, height := 10, depth := 3,
              segmented := 0, objects := [] })],
          1, 1, 0, 0⟩
        (process_annotations gsTen "imgs" "yolo" "voc" []) :=
  zero_count_record_outputs gsTen "imgs" "yolo" "voc" "sub/a.jpg" "0" [] 10 10
    (by decide) (by decide) (by decide)

/-- C9: a record whose declared count exceeds the remaining input is
truncated to the boxes actually read, logs the truncation warning, is
still processed (its YOLO and VOC outputs are written from the truncated
box list), and processing terminates cleanly at end-of-input (the model
is a total function and this equation is its entire result). -/
theorem truncated_record_still_processed (gs : String → Option (Nat × Nat))
    (image_dir yolo_dir voc_dir : String) (l cl : String) (bl : List String)
    (n : ℤ) (W H : Nat)
    (himg : isImageLine (strip l) = true)
    (hcl : pyInt? (strip cl) = some n)
    (hlen : bl.length < n.toNat)
    (hgs : gs (pyJoin image_dir (normpath (strip l))) = some (W, H)) :
    process_annotations gs image_dir yolo_dir voc_dir (l :: cl :: bl) =
      { yolo := [(pyJoin yolo_dir (splitextStem (normpath (strip l)) ++ ".txt"),
          (boxParse bl).map fun bb => convert_to_yolo bb (W : ℚ) (H : ℚ))],
        voc := [create_voc_xml (normpath (strip l)) W H (boxParse bl) voc_dir],
        yoloCount := 1, vocCount := 1, countWarns := 0, truncWarns := 1 } := by
  unfold process_annotations
  rw [procFold_cons]
  have h1 : pstep gs image_dir yolo_dir voc_dir (.boundary, ProcOut.empty) l =
      (.afterImage (strip l), ProcOut.empty) := by
    simp [pstep, pstepDelta, himg, ProcOut.append_empty]
  rw [h1, procFold_cons]
  have h2 : pstep gs image_dir yolo_dir voc_dir
      (.afterImage (strip l), ProcOut.empty) cl =
      (.inBoxes (strip l) n.toNat [], ProcOut.empty) := by
    simp [pstep, pstepDelta, hcl, show ¬ n.toNat = 0 by omega,
      ProcOut.append_empty]
  rw [h2, procFold_boxes_trunc gs image_dir yolo_dir voc_dir (strip l) bl n.toNat
    [] ProcOut.empty hlen]
  simp only [pfinal, List.nil_append, ProcOut.empty_append]
  simp [emitRecord, hgs, ProcOut.empty_append]

/-- Witness for C9: count 5 declared, only 2 box lines remain. -/
theorem truncated_record_still_processed_witness :
    process_annotations gsTen "imgs" "yolo" "voc"
        ["a.jpg", "5", "1 2 3 4", "5 6 7 8"] =
      { yolo := [(pyJoin "yolo" (splitextStem (normpath (strip "a.jpg")) ++ ".txt"),
          (boxParse ["1 2 3 4", "5 6 7 8"]).map
            fun bb => convert_to_yolo bb ((10 : Nat) : ℚ) ((10 : Nat) : ℚ))],
        voc := [create_voc_xml (normpath (strip "a.jpg")) 10 10
          (boxParse ["1 2 3 4", "5 6 7 8"]) "voc"],
        yoloCount := 1, vocCount := 1, countWarns := 0, truncWarns := 1 } :=
  truncated_record_still_processed gsTen "imgs" "yolo" "voc" "a.jpg" "5"
    ["1 2 3 4", "5 6 7 8"] 5 10 10 (by decide) (by decide) (by decide) (by decide)

/-! ### The filter pass (`filter_annotations`, lines 71-141)

The filter loop indexes `lines` with a Python `int` index that the
missing-image branch moves by `1 + num_boxes` — backwards if the parsed
count is negative, so the loop can re-read lines or diverge.  It is
therefore embedded as a fuelled step function over an integer index;
`none` means the Python loop diverges (fuel exhausted) or raises
(negative index past the front, an `IndexError`).  Emitted lines are the
stripped input lines with `'\n'` re-appended, exactly as the code
appends them. -/

/-- Python list subscription with negative-index wraparound. -/
def pyGet (lines : List String) (i : ℤ) : Option String :=
  if 0 ≤ i then lines.get? i.toNat
  else if 0 ≤ i + lines.length then lines.get? (i + lines.length).toNat
  else none

/-- Observable result of `filter_annotations`: the lines written to the
output file, the missing-image list, and the processed-images counter. -/
structure FilterOut where
  filtered : List String
  missing : List String
  processed : Nat
deriving DecidableEq

/-- The box-copying loop of lines 106-112: up to `num_boxes` iterations,
each checking for end-of-input (warn and break), then emitting the
stripped line and advancing. -/
def filterBoxLoop (lines : List String) : Nat → ℤ → List String → Option (List String × ℤ)
  | 0, idx, acc => some (acc, idx)
  | k + 1, idx, acc =>
    if (lines.length : ℤ) ≤ idx then some (acc, idx)
    else
      match pyGet lines idx with
      | none => none
      | some raw => filterBoxLoop lines k (idx + 1) (acc ++ [strip raw ++ "\n"])

/-- The main loop of lines 82-127, one fuel unit per iteration. -/
def filterLoop (ex : String → Bool) (image_dir : String) (lines : List String) :
    Nat → ℤ → List String → List String → Nat → Option FilterOut
  | 0, _, _, _, _ => none
  | fuel + 1, idx, acc, miss, proc =>
    if idx < (lines.length : ℤ) then
      match pyGet lines idx with
      | none => none
      | some raw =>
        let line := strip raw
        if isImageLine line then
          if ex (normpath (pyJoin image_dir line)) then
            let acc1 := acc ++ [line ++ "\n"]
            if (lines.length : ℤ) ≤ idx + 1 then some ⟨acc1, miss, proc⟩
            else
              match pyGet lines (idx + 1) with
              | none => none
              | some rawCount =>
                match pyInt? (strip rawCount) with
                | none => filterLoop ex image_dir lines fuel (idx + 2) acc1 miss proc
                | some n =>
                  match filterBoxLoop lines n.toNat (idx + 2)
                      (acc1 ++ [strip rawCount ++ "\n"]) with
                  | none => none
                  | some (acc2, idx2) =>
                    filterLoop ex image_dir lines fuel idx2 acc2 miss (proc + 1)
          else
            let miss1 := miss ++ [line]
            if (lines.length : ℤ) ≤ idx + 1 then some ⟨acc, miss1, proc⟩
            else
              match pyGet lines (idx + 1) with
              | none => none
              | some rawCount =>
                match pyInt? (strip rawCount) with
                | some n => filterLoop ex image_dir lines fuel (idx + 2 + n) acc miss1 proc
                | none => filterLoop ex image_dir lines fuel (idx + 2) acc miss1 proc
        else filterLoop ex image_dir lines fuel (idx + 1) acc miss proc
    else some ⟨acc, miss, proc⟩

/-- Model of `filter_annotations(file_path, image_dir, output_annotations_file)`
on the list of input lines.  When no record moves the index backwards,
each loop iteration advances the index, so `length + 1` fuel always
suffices. -/
def filter_annotations (ex : String → Bool) (image_dir : String)
    (lines : List String) : Option FilterOut :=
  filterLoop ex image_dir lines (lines.length + 1) 0 [] [] 0

/-! ### Claim C10 -/

/-- C10: in the filter pass, an image line whose image exists but whose
following count line fails `int` emits the image line alone (stripped,
with a newline) with no count line and no box lines after it, counts the
record neither as processed nor as missing, and resumes boundary
scanning two lines further on — so the filtered output can violate the
input grammar and the summary counts need not add up to the number of
records. -/
theorem filter_bad_count_emits_image_only (ex : String → Bool)
    (image_dir : String) (lines : List String) (fuel : Nat) (i : ℤ)
    (acc miss : List String) (proc : Nat) (raw rawCount : String)
    (hget : pyGet lines i = some raw)
    (himg : isImageLine (strip raw) = true)
    (hex : ex (normpath (pyJoin image_dir (strip raw))) = true)
    (hi1 : i + 1 < (lines.length : ℤ))
    (hget1 : pyGet lines (i + 1) = some rawCount)
    (hbad : pyInt? (strip rawCount) = none) :
    filterLoop ex image_dir lines (fuel + 1) i acc miss proc =
      filterLoop ex image_dir lines fuel (i + 2) (acc ++ [strip raw ++ "\n"])
        miss proc := by
  have hi : i < (lines.length : ℤ) := by omega
  simp only [filterLoop]
  rw [if_pos hi, hget]
  simp only [himg, if_true, hex, if_neg (not_le.2 hi1), hget1, hbad]

/-- Witness for C10: the two-line file `["a.jpg", "x"]` with every image
existing; additionally, the full run shows the output is just
`"a.jpg\n"` with processed = 0 and missing = ∅ for one record. -/
theorem filter_bad_count_emits_image_only_witness :
    (filterLoop (fun _ => true) "root" ["a.jpg", "x"] 3 0 [] [] 0 =
        filterLoop (fun _ => true) "root" ["a.jpg", "x"] 2 2
          ([] ++ [strip "a.jpg" ++ "\n"]) [] 0) ∧
      filter_annotations (fun _ => true) "root" ["a.jpg", "x"] =
        some ⟨["a.jpg\n"], [], 0⟩ :=
  ⟨filter_bad_count_emits_image_only (fun _ => true) "root" ["a.jpg", "x"] 2 0
      [] [] 0 "a.jpg" "x" (by decide) (by decide) (by decide) (by decide)
      (by decide) (by decide),
    by decide⟩

/-! ### Claim C5: blocks, existence filtering -/

/-- One record of the annotation file as raw lines: the image line, the
count line, and the box lines. -/
structure Block where
  img : String
  countLine : String
  boxLines : List String

/-- The raw lines of a block, in file order. -/
def Block.lines (b : Block) : List String := b.img :: b.countLine :: b.boxLines

/-- What the filter pass emits for a kept block: each line stripped with
a newline re-appended (lines 88, 98, 111). -/
def Block.emit (b : Block) : List String :=
  b.lines.map fun l => strip l ++ "\n"

/-- A block well-formed per the input grammar: its first line is an
image line and its count line parses to exactly the number of box
lines. -/
def Block.wf (b : Block) : Prop :=
  isImageLine (strip b.img) = true ∧
    pyInt? (strip b.countLine) = some (b.boxLines.length : ℤ)

/-- The path the filter pass tests for existence (line 86):
`os.path.normpath(os.path.join(image_dir, current_image))`. -/
def resolveImg (image_dir img : String) : String :=
  normpath (pyJoin image_dir (strip img))

instance (b : Block) : Decidable b.wf :=
  inferInstanceAs (Decidable (_ ∧ _))

lemma get?_append_add (pre r : List String) (k : Nat) :
    (pre ++ r).get? (pre.length + k) = r.get? k := by
  induction pre with
  | nil => simp
  | cons x xs ih =>
    show (x :: (xs ++ r)).get? (xs.length + 1 + k) = r.get? k
    have h : xs.length + 1 + k = (xs.length + k) + 1 := by omega
    rw [h]
    show (xs ++ r).get? (xs.length + k) = r.get? k
    exact ih

lemma pyGet_coe (lines : List String) (k : Nat) :
    pyGet lines (k : ℤ) = lines.get? k := by
  simp [pyGet]

lemma pyGet_pre (pre : List String) (x : String) (r : List String) :
    pyGet (pre ++ x :: r) (pre.length : ℤ) = some x := by
  rw [pyGet_coe]
  have := get?_append_add pre (x :: r) 0
  simpa using this

/-- The box-copying loop with exactly `bl.length` lines owed and
available copies them all (stripped, newline-terminated) and stops right
after them. -/
lemma filterBoxLoop_exact :
    ∀ (bl pre rest acc : List String),
      filterBoxLoop (pre ++ (bl ++ rest)) bl.length (pre.length : ℤ) acc =
        some (acc ++ bl.map (fun l => strip l ++ "\n"),
          ((pre.length + bl.length : ℕ) : ℤ)) := by
  intro bl
  induction bl with
  | nil => intro pre rest acc; simp [filterBoxLoop]
  | cons x bl ih =>
    intro pre rest acc
    have hshape : pre ++ ((x :: bl) ++ rest) = pre ++ x :: (bl ++ rest) := by simp
    have hshape2 : pre ++ ((x :: bl) ++ rest) = (pre ++ [x]) ++ (bl ++ rest) := by simp
    show filterBoxLoop (pre ++ ((x :: bl) ++ rest)) (bl.length + 1)
        (pre.length : ℤ) acc = _
    rw [filterBoxLoop]
    rw [if_neg (by rw [hshape]; simp; omega)]
    rw [show pyGet (pre ++ ((x :: bl) ++ rest)) (pre.length : ℤ) = some x by
      rw [hshape]; exact pyGet_pre pre x (bl ++ rest)]
    rw [hshape2]
    have hidx : ((pre.length : ℤ) + 1) = (((pre ++ [x]).length : ℕ) : ℤ) := by
      simp
    rw [hidx]
    show filterBoxLoop ((pre ++ [x]) ++ (bl ++ rest)) bl.length
        (((pre ++ [x]).length : ℕ) : ℤ) (acc ++ [strip x ++ "\n"]) =
      some (acc ++ List.map (fun l => strip l ++ "\n") (x :: bl),
        ((pre.length + (x :: bl).length : ℕ) : ℤ))
    rw [ih (pre ++ [x]) rest (acc ++ [strip x ++ "\n"])]
    simp [List.append_assoc]
    omega

/-- One iteration of the filter loop on a well-formed block whose image
exists: the whole block is emitted (stripped lines, newline-terminated),
the processed counter advances, and scanning resumes right after the
block. -/
lemma filterLoop_block_exists (ex : String → Bool) (image_dir : String)
    (pre : List String) (b : Block) (tl acc miss : List String)
    (proc fuel : Nat)
    (himg : isImageLine (strip b.img) = true)
    (hcl : pyInt? (strip b.countLine) = some (b.boxLines.length : ℤ))
    (hex : ex (resolveImg image_dir b.img) = true) :
    filterLoop ex image_dir (pre ++ (b.lines ++ tl)) (fuel + 1)
        (pre.length : ℤ) acc miss proc =
      filterLoop ex image_dir (pre ++ (b.lines ++ tl)) fuel
        (((pre ++ b.lines).length : ℕ) : ℤ) (acc ++ b.emit) miss (proc + 1) := by
  have hsh : pre ++ (b.lines ++ tl) =
      pre ++ b.img :: (b.countLine :: (b.boxLines ++ tl)) := by
    simp [Block.lines]
  have hsh2 : pre ++ (b.lines ++ tl) =
      (pre ++ [b.img]) ++ b.countLine :: (b.boxLines ++ tl) := by
    simp [Block.lines]
  have hsh3 : pre ++ (b.lines ++ tl) =
      (pre ++ [b.img, b.countLine]) ++ (b.boxLines ++ tl) := by
    simp [Block.lines]
  simp only [filterLoop]
  rw [if_pos (show (pre.length : ℤ) < ((pre ++ (b.lines ++ tl)).length : ℕ) by
    simp [Block.lines]; omega)]
  rw [show pyGet (pre ++ (b.lines ++ tl)) (pre.length : ℤ) = some b.img by
    rw [hsh]; exact pyGet_pre pre b.img _]
  simp only [himg, if_true, resolveImg] at hex ⊢
  rw [hex]
  simp only [if_true]
  rw [if_neg (show ¬ (((pre ++ (b.lines ++ tl)).length : ℕ) : ℤ) ≤ (pre.length : ℤ) + 1 by
    simp [Block.lines]; omega)]
  rw [show pyGet (pre ++ (b.lines ++ tl)) ((pre.length : ℤ) + 1) = some b.countLine by
    rw [hsh2, show ((pre.length : ℤ) + 1) = (((pre ++ [b.img]).length : ℕ) : ℤ) by simp]
    exact pyGet_pre (pre ++ [b.img]) b.countLine _]
  simp only [hcl]
  rw [show ((pre.length : ℤ) + 2) = (((pre ++ [b.img, b.countLine]).length : ℕ) : ℤ) by
    simp]
  rw [show pre ++ (b.lines ++ tl) = (pre ++ [b.img, b.countLine]) ++ (b.boxLines ++ tl) from hsh3]
  rw [show ((b.boxLines.length : ℤ)).toNat = b.boxLines.length from Int.toNat_natCast _]
  rw [filterBoxLoop_exact b.boxLines (pre ++ [b.img, b.countLine]) tl
    (acc ++ [strip b.img ++ "\n"] ++ [strip b.countLine ++ "\n"])]
  have hidx : (pre ++ [b.img, b.countLine]).length + b.boxLines.length =
      (pre ++ b.lines).length := by
    simp [Block.lines]; omega
  have hacc : acc ++ [strip b.img ++ "\n"] ++ [strip b.countLine ++ "\n"] ++
      b.boxLines.map (fun l => strip l ++ "\n") = acc ++ b.emit := by
    simp [Block.emit, Block.lines]
  rw [hidx, hacc, ← hsh3]

/-- One iteration of the filter loop on a well-formed block whose image
is missing: nothing is emitted, the image is recorded as missing, and
the index jumps over the whole block (`index += 1 + num_boxes`). -/
lemma filterLoop_block_missing (ex : String → Bool) (image_dir : String)
    (pre : List String) (b : Block) (tl acc miss : List String)
    (proc fuel : Nat)
    (himg : isImageLine (strip b.img) = true)
    (hcl : pyInt? (strip b.countLine) = some (b.boxLines.length : ℤ))
    (hex : ex (resolveImg image_dir b.img) = false) :
    filterLoop ex image_dir (pre ++ (b.lines ++ tl)) (fuel + 1)
        (pre.length : ℤ) acc miss proc =
      filterLoop ex image_dir (pre ++ (b.lines ++ tl)) fuel
        (((pre ++ b.lines).length : ℕ) : ℤ) acc (miss ++ [strip b.img]) proc := by
  have hsh : pre ++ (b.lines ++ tl) =
      pre ++ b.img :: (b.countLine :: (b.boxLines ++ tl)) := by
    simp [Block.lines]
  have hsh2 : pre ++ (b.lines ++ tl) =
      (pre ++ [b.img]) ++ b.countLine :: (b.boxLines ++ tl) := by
    simp [Block.lines]
  simp only [filterLoop]
  rw [if_pos (show (pre.length : ℤ) < ((pre ++ (b.lines ++ tl)).length : ℕ) by
    simp [Block.lines]; omega)]
  rw [show pyGet (pre ++ (b.lines ++ tl)) (pre.length : ℤ) = some b.img by
    rw [hsh]; exact pyGet_pre pre b.img _]
  simp only [himg, if_true, resolveImg] at hex ⊢
  rw [hex]
  simp only [Bool.false_eq_true, if_false]
  rw [if_neg (show ¬ (((pre ++ (b.lines ++ tl)).length : ℕ) : ℤ) ≤ (pre.length : ℤ) + 1 by
    simp [Block.lines]; omega)]
  rw [show pyGet (pre ++ (b.lines ++ tl)) ((pre.length : ℤ) + 1) = some b.countLine by
    rw [hsh2, show ((pre.length : ℤ) + 1) = (((pre ++ [b.img]).length : ℕ) : ℤ) by simp]
    exact pyGet_pre (pre ++ [b.img]) b.countLine _]
  simp only [hcl]
  rw [show (pre.length : ℤ) + 2 + (b.boxLines.length : ℤ) =
      (((pre ++ b.lines).length : ℕ) : ℤ) by simp [Block.lines]; ring]

lemma length_le_flatMap_lines (bs : List Block) :
    bs.length ≤ (bs.flatMap Block.lines).length := by
  induction bs with
  | nil => simp
  | cons b bs ih =>
    simp only [List.flatMap_cons, List.length_append, List.length_cons]
    have hb : 1 ≤ b.lines.length := by simp [Block.lines]
    omega

/-- The filter loop over a sequence of well-formed blocks: exactly the
blocks whose image exists are emitted (in order, stripped), the others
contribute their image to the missing list, and the processed counter
counts the kept blocks. -/
lemma filterLoop_blocks (ex : String → Bool) (image_dir : String) :
    ∀ (bs : List Block) (pre acc miss : List String) (proc fuel : Nat),
      (∀ b ∈ bs, b.wf) → bs.length < fuel →
      filterLoop ex image_dir (pre ++ bs.flatMap Block.lines) fuel
          (pre.length : ℤ) acc miss proc =
        some ⟨acc ++ (bs.filter fun b => ex (resolveImg image_dir b.img)).flatMap Block.emit,
          miss ++ (bs.filter fun b => !ex (resolveImg image_dir b.img)).map
            fun b => strip b.img,
          proc + (bs.filter fun b => ex (resolveImg image_dir b.img)).length⟩ := by
  intro bs
  induction bs with
  | nil =>
    intro pre acc miss proc fuel _ hfuel
    obtain ⟨f, rfl⟩ : ∃ f, fuel = f + 1 := ⟨fuel - 1, by omega⟩
    simp only [List.flatMap_nil, List.append_nil, List.filter_nil, List.map_nil,
      List.length_nil, Nat.add_zero]
    simp [filterLoop]
  | cons b bs ih =>
    intro pre acc miss proc fuel hwf hfuel
    obtain ⟨f, rfl⟩ : ∃ f, fuel = f + 1 := ⟨fuel - 1, by omega⟩
    obtain ⟨himg, hcl⟩ := hwf b (List.mem_cons_self b bs)
    have hwf2 : ∀ x ∈ bs, x.wf := fun x hx => hwf x (List.mem_cons_of_mem b hx)
    have hfuel2 : bs.length < f := by simp at hfuel; omega
    have hbind : (b :: bs).flatMap Block.lines = b.lines ++ bs.flatMap Block.lines := by
      simp
    rw [hbind]
    have hpre : pre ++ (b.lines ++ bs.flatMap Block.lines) =
        (pre ++ b.lines) ++ bs.flatMap Block.lines := by simp
    cases hex : ex (resolveImg image_dir b.img) with
    | true =>
      rw [filterLoop_block_exists ex image_dir pre b (bs.flatMap Block.lines)
        acc miss proc f himg hcl hex]
      rw [hpre, ih (pre ++ b.lines) (acc ++ b.emit) miss (proc + 1) f hwf2 hfuel2]
      simp [List.filter_cons, hex, List.append_assoc]
      omega
    | false =>
      rw [filterLoop_block_missing ex image_dir pre b (bs.flatMap Block.lines)
        acc miss proc f himg hcl hex]
      rw [hpre, ih (pre ++ b.lines) acc (miss ++ [strip b.img]) proc f hwf2 hfuel2]
      simp [List.filter_cons, hex, List.append_assoc]

/-- Counterexample to C5: with every image existing, the record whose
box line is `" 1 2 3 4 \n"` is re-emitted with that line stripped to
`"1 2 3 4\n"` — the output block is not byte-for-byte verbatim. -/
theorem filter_not_verbatim_cex :
    filter_annotations (fun _ => true) "root" ["a.jpg\n", "1\n", " 1 2 3 4 \n"] =
        some ⟨["a.jpg\n", "1\n", "1 2 3 4\n"], [], 1⟩ ∧
      (["a.jpg\n", "1\n", "1 2 3 4\n"] : List String) ≠
        ["a.jpg\n", "1\n", " 1 2 3 4 \n"] := by
  constructor <;> decide

/-- C5 (amended): for every sequence of well-formed records, the filter
pass writes the full block of a record — image line, count line and all its
raw box lines, each stripped of surrounding whitespace and
newline-terminated (so byte-verbatim exactly when the lines carry no
extra whitespace) — exactly when the image resolved against the image
root exists; otherwise the whole block is omitted and the image is
recorded as missing.  The processed count is the number of kept records
and the missing list holds the missing images in order. -/
theorem filter_blocks_by_existence (ex : String → Bool) (image_dir : String)
    (bs : List Block) (hwf : ∀ b ∈ bs, b.wf) :
    filter_annotations ex image_dir (bs.flatMap Block.lines) =
      some ⟨(bs.filter fun b => ex (resolveImg image_dir b.img)).flatMap Block.emit,
        (bs.filter fun b => !ex (resolveImg image_dir b.img)).map
          fun b => strip b.img,
        (bs.filter fun b => ex (resolveImg image_dir b.img)).length⟩ := by
  have h := filterLoop_blocks ex image_dir bs [] [] [] 0
    ((bs.flatMap Block.lines).length + 1) hwf
    (by have := length_le_flatMap_lines bs; omega)
  simpa [filter_annotations] using h

/-- Block A of the C5 witness scenario. -/
def blockA : Block := ⟨"a.jpg", "1", ["1 2 3 4"]⟩

/-- Block B of the C5 witness scenario. -/
def blockB : Block := ⟨"b.jpg", "1", ["5 6 7 8"]⟩

/-- Existence oracle of the C5 witness scenario: only `root/a.jpg`
exists. -/
def exA : String → Bool := fun s => s = "root/a.jpg"

/-- Witness for the amended C5 at the two-record scenario of the
specification: image A exists, image B does not; the output is exactly
the block of A, B contributes no lines, and the missing count is 1. -/
theorem filter_blocks_by_existence_witness :
    filter_annotations exA "root" ([blockA, blockB].flatMap Block.lines) =
        some ⟨([blockA, blockB].filter fun b => exA (resolveImg "root" b.img)).flatMap
            Block.emit,
          ([blockA, blockB].filter fun b => !exA (resolveImg "root" b.img)).map
            fun b => strip b.img,
          ([blockA, blockB].filter fun b => exA (resolveImg "root" b.img)).length⟩ ∧
      ([blockA, blockB].filter fun b => exA (resolveImg "root" b.img)).flatMap
          Block.emit = ["a.jpg\n", "1\n", "1 2 3 4\n"] ∧
      ([blockA, blockB].filter fun b => !exA (resolveImg "root" b.img)).map
          (fun b => strip b.img) = ["b.jpg"] ∧
      ([blockA, blockB].filter fun b => exA (resolveImg "root" b.img)).length = 1 :=
  ⟨filter_blocks_by_existence exA "root" [blockA, blockB] (by decide),
    by decide, by decide, by decide⟩

end Wider2Yolo
